import Mathlib

/-!
Shallow embedding of the EMG acquisition firmware of this repository.

Two firmware variants exist: the connection-oriented (HTTP POST) variant in
`03 firmware/adafruitM0/hostngrok.ino`, and the datagram (UDP) variant whose
sketch accompanies the README.  Both share the same configuration constants,
sampling phase and packet encoding; they differ only in the transmission
phase.  Machine integers are modelled as `Nat`/`Int` with explicit reduction
modulo `2^w` where the C code relies on fixed-width wraparound.
-/

namespace EMG

/-- Firmware constant: one sample every 40 microseconds (25 kSPS). -/
def SAMPLE_INTERVAL_US : Nat := 40

/-- Firmware constant: samples accumulated per packet. -/
def SAMPLES_PER_PACKET : Nat := 256

/-- The C conversion `(int16_t) x` of a C `int`: two's-complement wraparound
into the range `[-32768, 32767]`. -/
def toInt16 (x : Int) : Int := (x + 32768) % 65536 - 32768

/-- The C conversion `(uint16_t) x` of an `int16_t`: reduction modulo `2^16`,
yielding the unsigned bit pattern. -/
def toUInt16 (x : Int) : Nat := (x % 65536).toNat

/-- The firmware line `uint16_t binaryValue = (uint16_t) differential;` where
`int16_t differential = val_signal - val_ref;` and the two readings are the
`analogRead` results. -/
def binaryValue (val_signal val_ref : Nat) : Nat :=
  toUInt16 (toInt16 ((val_signal : Int) - (val_ref : Int)))

/-- The firmware expression `binaryValue & 0xFF` (low byte). -/
def loByte (v : Nat) : Nat := v &&& 0xFF

/-- The firmware expression `(binaryValue >> 8) & 0xFF` (high byte). -/
def hiByte (v : Nat) : Nat := (v >>> 8) &&& 0xFF

/-- The two bytes the sampling loop stores for one sample, low byte first
(little-endian), exactly as written to `packetBuffer[i*2]` and
`packetBuffer[i*2+1]`. -/
def encodeSample (s r : Nat) : List Nat :=
  [loByte (binaryValue s r), hiByte (binaryValue s r)]

/-- Decoding of a little-endian byte pair as a signed 16-bit integer, the
consumer-side contract for the wire format. -/
def decodeInt16LE (lo hi : Nat) : Int :=
  if lo + 256 * hi < 32768 then ((lo + 256 * hi : Nat) : Int)
  else ((lo + 256 * hi : Nat) : Int) - 65536

lemma loByte_eq_mod (v : Nat) : loByte v = v % 256 := by
  simpa using Nat.and_pow_two_sub_one_eq_mod v 8

lemma hiByte_eq_div_mod (v : Nat) : hiByte v = v / 256 % 256 := by
  unfold hiByte
  rw [Nat.shiftRight_eq_div_pow]
  simpa using Nat.and_pow_two_sub_one_eq_mod (v / 2 ^ 8) 8

lemma toUInt16_toInt16 (d : Int) : toUInt16 (toInt16 d) = (d % 65536).toNat := by
  unfold toUInt16 toInt16
  omega

lemma binaryValue_eq (s r : Nat) :
    binaryValue s r = (((s : Int) - (r : Int)) % 65536).toNat := by
  unfold binaryValue
  exact toUInt16_toInt16 _

/-- C1: for every pair of ADC readings in 0..1023, encoding the differential
sample (signed 16-bit cast, reinterpret as unsigned 16-bit, store low byte
then high byte) and decoding the byte pair as little-endian signed 16-bit
recovers exactly `signal − reference`; in particular signal=300,
reference=500 gives stored pattern 0xFF38 and bytes [0x38, 0xFF]. -/
theorem C1_encode_roundtrip :
    (∀ s r : Nat, s ≤ 1023 → r ≤ 1023 →
      decodeInt16LE (loByte (binaryValue s r)) (hiByte (binaryValue s r)) =
        (s : Int) - (r : Int))
    ∧ binaryValue 300 500 = 0xFF38
    ∧ encodeSample 300 500 = [0x38, 0xFF]
    ∧ decodeInt16LE 0x38 0xFF = -200 := by
  refine ⟨?_, by decide, by decide, by decide⟩
  intro s r hs hr
  rw [binaryValue_eq, loByte_eq_mod, hiByte_eq_div_mod]
  unfold decodeInt16LE
  split <;> omega

/-- Witness for C1 at signal=300, reference=500. -/
theorem C1_encode_roundtrip_witness :
    decodeInt16LE (loByte (binaryValue 300 500)) (hiByte (binaryValue 300 500)) =
      ((300 : Nat) : Int) - ((500 : Nat) : Int) :=
  C1_encode_roundtrip.1 300 500 (by decide) (by decide)

/-- C8: for 10-bit readings the differential lies in [−1023, 1023], the
`int → int16_t` conversion is the identity there (no truncation), and the
stored 16-bit pattern determines the differential uniquely. -/
theorem C8_differential_in_range (s r : Nat) (hs : s ≤ 1023) (hr : r ≤ 1023) :
    (-1023 ≤ (s : Int) - (r : Int) ∧ (s : Int) - (r : Int) ≤ 1023)
    ∧ toInt16 ((s : Int) - (r : Int)) = (s : Int) - (r : Int)
    ∧ (∀ s2 r2 : Nat, s2 ≤ 1023 → r2 ≤ 1023 →
        binaryValue s r = binaryValue s2 r2 →
        (s : Int) - (r : Int) = (s2 : Int) - (r2 : Int)) := by
  refine ⟨by omega, by unfold toInt16; omega, ?_⟩
  intro s2 r2 hs2 hr2 h
  rw [binaryValue_eq, binaryValue_eq] at h
  omega

/-- Witness for C8 at signal=300, reference=500. -/
theorem C8_differential_in_range_witness :
    toInt16 (((300 : Nat) : Int) - ((500 : Nat) : Int)) =
      ((300 : Nat) : Int) - ((500 : Nat) : Int) :=
  (C8_differential_in_range 300 500 (by decide) (by decide)).2.1

/-- The global `uint8_t packetBuffer[SAMPLES_PER_PACKET * 2]`, zero-initialized
as a C static object; modelled as a list of byte values. -/
def packetBuffer0 : List Nat := List.replicate (SAMPLES_PER_PACKET * 2) 0

/-- One body execution of the sampling `for` loop at index `i`: reads both
channels (`sig i`, `ref2 i` are the `analogRead(A1)` / `analogRead(A2)`
results of iteration `i`), computes the differential, and stores its two
bytes at `packetBuffer[i*2]` and `packetBuffer[i*2+1]`. -/
def sampleStep (sig ref2 : Nat → Nat) (buf : List Nat) (i : Nat) : List Nat :=
  ((buf.set (i * 2) (loByte (binaryValue (sig i) (ref2 i)))).set (i * 2 + 1)
    (hiByte (binaryValue (sig i) (ref2 i))))

/-- The sampling phase: `for (int i = 0; i < SAMPLES_PER_PACKET; i++)`
running `sampleStep` on the shared buffer. -/
def samplingPhase (sig ref2 : Nat → Nat) (buf : List Nat) : List Nat :=
  (List.range SAMPLES_PER_PACKET).foldl (sampleStep sig ref2) buf

/-- The concatenation of the first `n` encoded samples: the fully written
prefix of the packet after `n` loop iterations. -/
def packetBytesAux (sig ref2 : Nat → Nat) : Nat → List Nat
  | 0 => []
  | n + 1 => packetBytesAux sig ref2 n ++ encodeSample (sig n) (ref2 n)

/-- The complete serialized packet body for one acquisition cycle. -/
def packetBytes (sig ref2 : Nat → Nat) : List Nat :=
  packetBytesAux sig ref2 SAMPLES_PER_PACKET

lemma packetBytesAux_length (sig ref2 : Nat → Nat) (n : Nat) :
    (packetBytesAux sig ref2 n).length = n * 2 := by
  induction n with
  | zero => rfl
  | succ n ih => simp [packetBytesAux, encodeSample, ih]; omega

lemma foldl_sampleStep_eq (sig ref2 : Nat → Nat) (buf : List Nat) :
    ∀ n, n * 2 ≤ buf.length →
    (List.range n).foldl (sampleStep sig ref2) buf =
      packetBytesAux sig ref2 n ++ buf.drop (n * 2) := by
  intro n
  induction n with
  | zero => intro _; simp [packetBytesAux]
  | succ n ih =>
    intro h
    have hlt0 : n * 2 < buf.length := by omega
    have hlt1 : n * 2 + 1 < buf.length := by omega
    rw [List.range_succ, List.foldl_append, ih (by omega)]
    show sampleStep sig ref2 (packetBytesAux sig ref2 n ++ buf.drop (n * 2)) n = _
    unfold sampleStep
    rw [List.set_append_right _ _ (by rw [packetBytesAux_length])]
    rw [packetBytesAux_length, Nat.sub_self]
    rw [List.drop_eq_getElem_cons hlt0]
    show (packetBytesAux sig ref2 n ++
        (loByte (binaryValue (sig n) (ref2 n)) :: buf.drop (n * 2 + 1))).set (n * 2 + 1) _ = _
    rw [List.set_append_right _ _ (by rw [packetBytesAux_length]; omega)]
    rw [packetBytesAux_length]
    have h1 : n * 2 + 1 - n * 2 = 1 := by omega
    rw [h1, List.drop_eq_getElem_cons hlt1]
    show packetBytesAux sig ref2 n ++
        (loByte (binaryValue (sig n) (ref2 n)) ::
          hiByte (binaryValue (sig n) (ref2 n)) :: buf.drop (n * 2 + 1 + 1)) =
      packetBytesAux sig ref2 (n + 1) ++ buf.drop ((n + 1) * 2)
    have h2 : (n + 1) * 2 = n * 2 + 1 + 1 := by omega
    rw [h2]
    show _ = (packetBytesAux sig ref2 n ++ encodeSample (sig n) (ref2 n)) ++ _
    rw [List.append_assoc]
    rfl

/-- The sampling phase on a full-size buffer produces exactly the
concatenation of the 256 encoded samples. -/
lemma samplingPhase_eq (sig ref2 : Nat → Nat) (buf : List Nat)
    (h : buf.length = SAMPLES_PER_PACKET * 2) :
    samplingPhase sig ref2 buf = packetBytes sig ref2 := by
  unfold samplingPhase packetBytes
  rw [foldl_sampleStep_eq sig ref2 buf SAMPLES_PER_PACKET (by omega)]
  rw [List.drop_eq_nil_of_le (by omega), List.append_nil]

lemma packetBytes_length (sig ref2 : Nat → Nat) :
    (packetBytes sig ref2).length = SAMPLES_PER_PACKET * 2 :=
  packetBytesAux_length sig ref2 SAMPLES_PER_PACKET

lemma samplingPhase_length (sig ref2 : Nat → Nat) (buf : List Nat)
    (h : buf.length = SAMPLES_PER_PACKET * 2) :
    (samplingPhase sig ref2 buf).length = SAMPLES_PER_PACKET * 2 := by
  rw [samplingPhase_eq sig ref2 buf h, packetBytes_length]

lemma packetBuffer0_length : packetBuffer0.length = SAMPLES_PER_PACKET * 2 := by
  simp [packetBuffer0]

/-- C7: every buffer index written by the sampling loop (`i*2` and `i*2+1`
for `0 ≤ i < SAMPLES_PER_PACKET`) lies strictly within the bounds of the
512-byte packet buffer. -/
theorem C7_indices_in_bounds :
    ∀ i : Nat, i < SAMPLES_PER_PACKET →
      i * 2 < packetBuffer0.length ∧ i * 2 + 1 < packetBuffer0.length := by
  intro i h
  rw [packetBuffer0_length]
  omega

/-- Witness for C7 at the last loop index, i = 255. -/
theorem C7_indices_in_bounds_witness : 255 * 2 + 1 < packetBuffer0.length :=
  (C7_indices_in_bounds 255 (by decide)).2

/-- HTTP-variant configuration constant `char server[]`. -/
def server : String := "change-me.ngrok.io"

/-- HTTP-variant configuration constant `char path[]`. -/
def path : String := "/api/data"

/-- HTTP-variant configuration constant `int port`. -/
def port : Nat := 80

/-- UDP-variant configuration constant `IPAddress remoteIp(192, 168, 1, 9)`. -/
def remoteIp : List Nat := [192, 168, 1, 9]

/-- UDP-variant configuration constant `unsigned int remotePort = 8888`. -/
def remotePort : Nat := 8888

/-- Observable effects of the firmware on its peripherals: serial output,
the Wi-Fi client (HTTP variant) and the UDP socket (datagram variant). -/
inductive Effect : Type
  | serialLine (s : String)
  | connectAttempt (host : String) (p : Nat)
  | clientPrint (s : String)
  | clientWrite (data : List Nat) (len : Nat)
  | clientRead
  | clientStop
  | wifiBeginAttempt
  | udpBegin (p : Nat)
  | udpBeginPacket (ip : List Nat) (p : Nat)
  | udpWrite (data : List Nat) (len : Nat)
  | udpEndPacket
  deriving DecidableEq

/-- CRLF line terminator appended by the Arduino `println` primitives. -/
def crlf : String := "\r\n"

/-- The transmission phase of the HTTP variant (`hostngrok.ino` lines
86–123), statement by statement.  `connected` is the Boolean result of
`client.connect(server, port)`; `buf` is the packet buffer contents. -/
def httpTransmit (connected : Bool) (buf : List Nat) : List Effect :=
  Effect.serialLine "Starting connection to server..." ::
  Effect.connectAttempt server port ::
  (if connected then
    [Effect.serialLine "Connected to server",
     Effect.clientPrint "POST ",
     Effect.clientPrint path,
     Effect.clientPrint (" HTTP/1.1" ++ crlf),
     Effect.clientPrint "Host: ",
     Effect.clientPrint (server ++ crlf),
     Effect.clientPrint ("Content-Type: application/octet-stream" ++ crlf),
     Effect.clientPrint "Content-Length: ",
     Effect.clientPrint (Nat.repr (SAMPLES_PER_PACKET * 2) ++ crlf),
     Effect.clientPrint ("Connection: close" ++ crlf),
     Effect.clientPrint crlf,
     Effect.clientWrite buf (SAMPLES_PER_PACKET * 2),
     Effect.clientStop,
     Effect.serialLine "Data sent & disconnected"]
  else
    [Effect.serialLine "Connection failed"])

/-- The transmission phase of the UDP variant: `Udp.beginPacket(remoteIp,
remotePort); Udp.write(packetBuffer, SAMPLES_PER_PACKET * 2);
Udp.endPacket();`. -/
def udpTransmit (buf : List Nat) : List Effect :=
  [Effect.udpBeginPacket remoteIp remotePort,
   Effect.udpWrite buf (SAMPLES_PER_PACKET * 2),
   Effect.udpEndPacket]

/-- One full `loop()` iteration of the HTTP variant: the sampling phase
followed by the transmission phase.  Returns the buffer contents after the
iteration and the emitted effects. -/
def httpLoopIter (connected : Bool) (sig ref2 : Nat → Nat) (buf : List Nat) :
    List Nat × List Effect :=
  (samplingPhase sig ref2 buf, httpTransmit connected (samplingPhase sig ref2 buf))

/-- One full `loop()` iteration of the UDP variant.  `sendOk` is the result
of `Udp.endPacket()`; the code discards it, so it is an unused input here
exactly as in the source. -/
def udpLoopIter (sendOk : Bool) (sig ref2 : Nat → Nat) (buf : List Nat) :
    List Nat × List Effect :=
  (samplingPhase sig ref2 buf, udpTransmit (samplingPhase sig ref2 buf))

/-- Repeated `loop()` of the UDP variant: `sendOk k`, `sigs k`, `refs k` are
the environment responses during cycle `k`. -/
def udpRun (sendOk : Nat → Bool) (sigs refs : Nat → Nat → Nat) :
    Nat → List Nat × List Effect
  | 0 => (packetBuffer0, [])
  | n + 1 =>
    ((udpLoopIter (sendOk n) (sigs n) (refs n) (udpRun sendOk sigs refs n).1).1,
      (udpRun sendOk sigs refs n).2 ++
        (udpLoopIter (sendOk n) (sigs n) (refs n) (udpRun sendOk sigs refs n).1).2)

/-- Repeated `loop()` of the HTTP variant. -/
def httpRun (connected : Nat → Bool) (sigs refs : Nat → Nat → Nat) :
    Nat → List Nat × List Effect
  | 0 => (packetBuffer0, [])
  | n + 1 =>
    ((httpLoopIter (connected n) (sigs n) (refs n) (httpRun connected sigs refs n).1).1,
      (httpRun connected sigs refs n).2 ++
        (httpLoopIter (connected n) (sigs n) (refs n) (httpRun connected sigs refs n).1).2)

/-- The byte payload a transport send primitive actually transmits:
`client.write(buf, len)` and `Udp.write(buf, len)` send `len` bytes taken
from `buf`. -/
def payloadOf : Effect → Option (List Nat)
  | Effect.clientWrite d len => some (d.take len)
  | Effect.udpWrite d len => some (d.take len)
  | _ => none

/-- All payloads handed to a transport in a trace. -/
def transportPayloads (t : List Effect) : List (List Nat) := t.filterMap payloadOf

def clientPrintOf : Effect → Option String
  | Effect.clientPrint s => some s
  | _ => none

/-- Concatenation of everything printed to the Wi-Fi client before the
binary body (the textual request header block). -/
def clientHeaderText (t : List Effect) : String :=
  String.join (t.filterMap clientPrintOf)

def isClientRead : Effect → Bool
  | Effect.clientRead => true
  | _ => false

def isConnectAttempt : Effect → Bool
  | Effect.connectAttempt _ _ => true
  | _ => false

def isConnectionFailedNotice : Effect → Bool
  | Effect.serialLine s => s == "Connection failed"
  | _ => false

/-- Local ports bound by `Udp.begin` in a trace. -/
def udpBindPorts (t : List Effect) : List Nat :=
  t.filterMap fun e =>
    match e with
    | Effect.udpBegin p => some p
    | _ => none

/-- Destinations of `Udp.beginPacket` calls in a trace. -/
def udpDestinations (t : List Effect) : List (List Nat × Nat) :=
  t.filterMap fun e =>
    match e with
    | Effect.udpBeginPacket ip p => some (ip, p)
    | _ => none

/-- The `setup()` of the UDP variant, network part: `wifiAttempts` Wi-Fi
association attempts (the `while (status != WL_CONNECTED)` retry loop),
then a single `Udp.begin(remotePort)`. -/
def udpSetup (wifiAttempts : Nat) : List Effect :=
  List.replicate wifiAttempts Effect.wifiBeginAttempt ++ [Effect.udpBegin remotePort]

lemma packetBytes_take (sig ref2 : Nat → Nat) :
    (packetBytes sig ref2).take (SAMPLES_PER_PACKET * 2) = packetBytes sig ref2 :=
  List.take_of_length_le (by rw [packetBytes_length])

lemma udpLoopIter_sendOk_irrel (a b : Bool) (sig ref2 : Nat → Nat)
    (buf : List Nat) : udpLoopIter a sig ref2 buf = udpLoopIter b sig ref2 buf :=
  rfl

lemma udpBindPorts_append (s t : List Effect) :
    udpBindPorts (s ++ t) = udpBindPorts s ++ udpBindPorts t := by
  unfold udpBindPorts
  exact List.filterMap_append s t _

lemma udpDestinations_append (s t : List Effect) :
    udpDestinations (s ++ t) = udpDestinations s ++ udpDestinations t := by
  unfold udpDestinations
  exact List.filterMap_append s t _

/-- C2: in both variants, every buffer handed to a transport send primitive
holds exactly the 256 encoded samples of the cycle, serialized as exactly
512 bytes; no call path transmits a partially filled buffer (on a failed
connect nothing at all is handed to the transport). -/
theorem C2_only_full_packets_sent (sig ref2 : Nat → Nat) (buf : List Nat)
    (connected sendOk : Bool) (h : buf.length = SAMPLES_PER_PACKET * 2) :
    transportPayloads (udpLoopIter sendOk sig ref2 buf).2 = [packetBytes sig ref2]
    ∧ transportPayloads (httpLoopIter connected sig ref2 buf).2 =
        (if connected then [packetBytes sig ref2] else [])
    ∧ (packetBytes sig ref2).length = SAMPLES_PER_PACKET * 2 := by
  refine ⟨?_, ?_, packetBytes_length sig ref2⟩
  · simp [udpLoopIter, udpTransmit, transportPayloads, payloadOf,
      samplingPhase_eq sig ref2 buf h, packetBytes_take]
  · cases connected <;>
      simp [httpLoopIter, httpTransmit, transportPayloads, payloadOf,
        samplingPhase_eq sig ref2 buf h, packetBytes_take]

/-- Witness for C2 on the startup buffer with all-zero readings. -/
theorem C2_only_full_packets_sent_witness :
    (packetBytes (fun _ => 0) (fun _ => 0)).length = SAMPLES_PER_PACKET * 2 :=
  (C2_only_full_packets_sent (fun _ => 0) (fun _ => 0) packetBuffer0 true true
    packetBuffer0_length).2.2

/-- C4: in the datagram variant the result of `Udp.endPacket()` is never
inspected: runs of the loop that differ only in the success or failure of
every send have identical buffer states and identical effect traces — the
control flow after a failed send is the control flow after a successful
one. -/
theorem C4_send_result_ignored (sendOk1 sendOk2 : Nat → Bool)
    (sigs refs : Nat → Nat → Nat) (n : Nat) :
    udpRun sendOk1 sigs refs n = udpRun sendOk2 sigs refs n := by
  induction n with
  | zero => rfl
  | succ n ih =>
    simp only [udpRun]
    rw [ih, udpLoopIter_sendOk_irrel (sendOk1 n) (sendOk2 n)]

/-- C5: in the connection-oriented variant a failed connection attempt
emits exactly one failure notice, hands zero bytes to the transport, makes
exactly one (and only one) connection attempt, and leaves the loop state
identical to the success case so the next acquisition cycle begins
normally. -/
theorem C5_connect_failure_handling (sig ref2 : Nat → Nat) (buf : List Nat) :
    httpTransmit false (samplingPhase sig ref2 buf) =
      [Effect.serialLine "Starting connection to server...",
       Effect.connectAttempt server port,
       Effect.serialLine "Connection failed"]
    ∧ (httpTransmit false (samplingPhase sig ref2 buf)).countP
        isConnectionFailedNotice = 1
    ∧ transportPayloads (httpTransmit false (samplingPhase sig ref2 buf)) = []
    ∧ (httpTransmit false (samplingPhase sig ref2 buf)).countP isConnectAttempt = 1
    ∧ (httpLoopIter false sig ref2 buf).1 = (httpLoopIter true sig ref2 buf).1 :=
  ⟨rfl, rfl, rfl, rfl, rfl⟩

/-- C6: on a successful connection the HTTP variant emits exactly one
request — a textual header block terminated by an empty line, containing
`Content-Type: application/octet-stream` and `Content-Length: 512` —
followed immediately by the 512-byte body byte-for-byte identical to the
assembled buffer, then closes the connection without any read. -/
theorem C6_http_wire_format (sig ref2 : Nat → Nat) (buf : List Nat)
    (h : buf.length = SAMPLES_PER_PACKET * 2) :
    httpTransmit true (samplingPhase sig ref2 buf) =
      [Effect.serialLine "Starting connection to server...",
       Effect.connectAttempt server port,
       Effect.serialLine "Connected to server",
       Effect.clientPrint "POST ",
       Effect.clientPrint path,
       Effect.clientPrint (" HTTP/1.1" ++ crlf),
       Effect.clientPrint "Host: ",
       Effect.clientPrint (server ++ crlf),
       Effect.clientPrint ("Content-Type: application/octet-stream" ++ crlf),
       Effect.clientPrint "Content-Length: ",
       Effect.clientPrint (Nat.repr (SAMPLES_PER_PACKET * 2) ++ crlf),
       Effect.clientPrint ("Connection: close" ++ crlf),
       Effect.clientPrint crlf,
       Effect.clientWrite (samplingPhase sig ref2 buf) (SAMPLES_PER_PACKET * 2),
       Effect.clientStop,
       Effect.serialLine "Data sent & disconnected"]
    ∧ clientHeaderText (httpTransmit true (samplingPhase sig ref2 buf)) =
        "POST /api/data HTTP/1.1\r\nHost: change-me.ngrok.io\r\nContent-Type: application/octet-stream\r\nContent-Length: 512\r\nConnection: close\r\n\r\n"
    ∧ transportPayloads (httpTransmit true (samplingPhase sig ref2 buf)) =
        [samplingPhase sig ref2 buf]
    ∧ (httpTransmit true (samplingPhase sig ref2 buf)).countP isClientRead = 0 := by
  refine ⟨rfl, rfl, ?_, rfl⟩
  have htake : (samplingPhase sig ref2 buf).take (SAMPLES_PER_PACKET * 2) =
      samplingPhase sig ref2 buf :=
    List.take_of_length_le (le_of_eq (samplingPhase_length sig ref2 buf h))
  simp [httpTransmit, transportPayloads, payloadOf, htake]

/-- Witness for C6 on the startup buffer with all-zero readings. -/
theorem C6_http_wire_format_witness :
    transportPayloads
        (httpTransmit true (samplingPhase (fun _ => 0) (fun _ => 0) packetBuffer0)) =
      [samplingPhase (fun _ => 0) (fun _ => 0) packetBuffer0] :=
  (C6_http_wire_format (fun _ => 0) (fun _ => 0) packetBuffer0
    packetBuffer0_length).2.2.1

/-- C9: in both variants the transmission phase only reads the packet
buffer: the bytes handed to the transport are exactly the bytes produced by
the immediately preceding sampling phase, and the buffer state after the
iteration is exactly the sampling phase output. -/
theorem C9_transmission_reads_only (sig ref2 : Nat → Nat) (buf : List Nat)
    (connected sendOk : Bool) (h : buf.length = SAMPLES_PER_PACKET * 2) :
    (udpLoopIter sendOk sig ref2 buf).1 = samplingPhase sig ref2 buf
    ∧ transportPayloads (udpLoopIter sendOk sig ref2 buf).2 =
        [samplingPhase sig ref2 buf]
    ∧ (httpLoopIter connected sig ref2 buf).1 = samplingPhase sig ref2 buf
    ∧ (connected = true →
        transportPayloads (httpLoopIter connected sig ref2 buf).2 =
          [samplingPhase sig ref2 buf]) := by
  have htake : (samplingPhase sig ref2 buf).take (SAMPLES_PER_PACKET * 2) =
      samplingPhase sig ref2 buf :=
    List.take_of_length_le (le_of_eq (samplingPhase_length sig ref2 buf h))
  refine ⟨by simp [udpLoopIter], ?_, by simp [httpLoopIter], ?_⟩
  · simp [udpLoopIter, udpTransmit, transportPayloads, payloadOf, htake]
  · intro hc
    subst hc
    simp [httpLoopIter, httpTransmit, transportPayloads, payloadOf, htake]

/-- Witness for C9 on the startup buffer with all-zero readings. -/
theorem C9_transmission_reads_only_witness :
    transportPayloads (udpLoopIter true (fun _ => 0) (fun _ => 0) packetBuffer0).2 =
      [samplingPhase (fun _ => 0) (fun _ => 0) packetBuffer0] :=
  (C9_transmission_reads_only (fun _ => 0) (fun _ => 0) packetBuffer0 true true
    packetBuffer0_length).2.1

lemma udpBindPorts_replicate (k : Nat) :
    udpBindPorts (List.replicate k Effect.wifiBeginAttempt) = [] := by
  induction k with
  | zero => rfl
  | succ k ih => simpa [List.replicate_succ, udpBindPorts] using ih

/-- C10: the UDP variant binds its local socket exactly once at startup, to
the very port number used as the remote destination port (8888), and every
packet of every run is sent to the fixed remote address and port configured
at startup; steady-state operation never rebinds the socket. -/
theorem C10_udp_fixed_endpoints (wifiAttempts n : Nat) (sendOk : Nat → Bool)
    (sigs refs : Nat → Nat → Nat) :
    udpBindPorts (udpSetup wifiAttempts) = [remotePort]
    ∧ remotePort = 8888
    ∧ udpBindPorts (udpRun sendOk sigs refs n).2 = []
    ∧ udpDestinations (udpRun sendOk sigs refs n).2 =
        List.replicate n (remoteIp, remotePort) := by
  refine ⟨?_, rfl, ?_, ?_⟩
  · show udpBindPorts
        (List.replicate wifiAttempts Effect.wifiBeginAttempt ++
          [Effect.udpBegin remotePort]) = [remotePort]
    rw [udpBindPorts_append, udpBindPorts_replicate, List.nil_append]
    rfl
  · induction n with
    | zero => rfl
    | succ n ih =>
      show udpBindPorts ((udpRun sendOk sigs refs n).2 ++
          (udpLoopIter (sendOk n) (sigs n) (refs n)
            (udpRun sendOk sigs refs n).1).2) = []
      rw [udpBindPorts_append, ih, List.nil_append]
      rfl
  · induction n with
    | zero => rfl
    | succ n ih =>
      show udpDestinations ((udpRun sendOk sigs refs n).2 ++
          (udpLoopIter (sendOk n) (sigs n) (refs n)
            (udpRun sendOk sigs refs n).1).2) =
        List.replicate (n + 1) (remoteIp, remotePort)
      rw [udpDestinations_append, ih, List.replicate_succ']
      rfl

/-- Modulus of the 32-bit `unsigned long` returned by `micros()`. -/
def MICROS_MOD : Nat := 4294967296

/-- The `micros()` reading at absolute microsecond time `t`: truncation of
the true count to 32 bits. -/
def microsOf (t : Nat) : Nat := t % MICROS_MOD

/-- The C expression `micros() - previousMicros` on 32-bit unsigned values:
wraparound-safe subtraction modulo 2^32. -/
def elapsed32 (now prev : Nat) : Nat :=
  (now % MICROS_MOD + MICROS_MOD - prev % MICROS_MOD) % MICROS_MOD

/-- The exit condition of the busy-wait
`while (micros() - previousMicros < SAMPLE_INTERVAL_US);` — the loop exits
(and the next sample is taken) exactly when this is `true`. -/
def waitDone (previousMicros now : Nat) : Bool :=
  decide (SAMPLE_INTERVAL_US ≤ elapsed32 now previousMicros)

/-- C3: a sample is never taken early.  If the previous sample timestamp
was (true time) `tPrev`, the busy-wait check passes at true time `tNow`,
and less than one full 2^32 µs timer period elapsed in between, then the
32-bit computed elapsed value equals the true elapsed time exactly — even
across a `micros()` wraparound — and that elapsed time is at least the
configured 40 µs interval. -/
theorem C3_sample_never_early (tPrev tNow : Nat) (hle : tPrev ≤ tNow)
    (hspan : tNow - tPrev < MICROS_MOD)
    (hdone : waitDone (microsOf tPrev) (microsOf tNow) = true) :
    elapsed32 (microsOf tNow) (microsOf tPrev) = tNow - tPrev
    ∧ SAMPLE_INTERVAL_US ≤ tNow - tPrev := by
  have h1 : elapsed32 (microsOf tNow) (microsOf tPrev) = tNow - tPrev := by
    unfold elapsed32 microsOf MICROS_MOD at *
    omega
  have h2 := of_decide_eq_true hdone
  rw [h1] at h2
  exact ⟨h1, h2⟩

/-- Witness for C3 across a timer wraparound: the previous timestamp is
10 µs before the 2^32 µs wrap, the check passes 35 µs after it; the
computed elapsed time is 45 µs ≥ 40 µs. -/
theorem C3_sample_never_early_witness :
    elapsed32 (microsOf (MICROS_MOD + 35)) (microsOf (MICROS_MOD - 10)) =
      MICROS_MOD + 35 - (MICROS_MOD - 10)
    ∧ SAMPLE_INTERVAL_US ≤ MICROS_MOD + 35 - (MICROS_MOD - 10) :=
  C3_sample_never_early (MICROS_MOD - 10) (MICROS_MOD + 35) (by decide)
    (by decide) (by decide)

end EMG
